import Mathlib

/-
Verification of the `music-player` repository's marshalling layer
(`libs/serialize.py`), overscroll stretch effect (`components/effects.py`)
and theme manager (`ui/theme.py`), as a shallow embedding in Lean 4.
-/

namespace MusicPlayer

/-- Keys of Python dictionaries and of the Java `HashMap`s they are
marshalled to.  Python requires dictionary keys to be hashable, so keys
are primitives (bool, int, float, str) or some other opaque hashable
object; they are passed through unchanged by every marshalling
function.  Floats are modelled by exact rationals. -/
inductive Key where
  | kbool (b : Bool)
  | kint (n : Int)
  | kfloat (q : ℚ)
  | kstr (s : String)
  | kother (tag : Nat)
  deriving DecidableEq, Repr

/-- Values manipulated by `libs/serialize.py`: native Python values
(booleans, ints, floats, strings, lists, dicts), Java objects reached
through the pyjnius bridge (`java.lang.Boolean/Long/Double/String`,
`java.util.HashMap`, `java.util.ArrayList`), and opaque objects of any
other type.  Python floats are modelled by exact rationals.  A Python
dict and a Java `HashMap` are both modelled as ordered association
lists of key-value pairs. -/
inductive Val where
  | pybool (b : Bool)
  | pyint (n : Int)
  | pyfloat (q : ℚ)
  | pystr (s : String)
  | pydict (entries : List (Key × Val))
  | pylist (xs : List Val)
  | jbool (b : Bool)
  | jlong (n : Int)
  | jdouble (q : ℚ)
  | jstring (s : String)
  | jmap (entries : List (Key × Val))
  | jarray (xs : List Val)
  | other (tag : Nat)

/-- `hasattr(value, "put")`: among the modelled values, only a
`java.util.HashMap` proxy exposes a `put` attribute. -/
def hasPut : Val → Bool
  | .jmap _ => true
  | _ => false

/-- `hasattr(value, "iterator")`: among the modelled values, only a
`java.util.ArrayList` proxy exposes an `iterator` attribute. -/
def hasIterator : Val → Bool
  | .jarray _ => true
  | _ => false

/-- Insertion into an association list: if the key is already present
its value is replaced in place, otherwise the pair is appended.  This
is the common behaviour of `java.util.HashMap.put` and of Python
dictionary item assignment `d[key] = value`. -/
def assocPut (m : List (Key × Val)) (key : Key) (value : Val) : List (Key × Val) :=
  if m.any (fun kv => kv.1 == key) then
    m.map (fun kv => if kv.1 == key then (key, value) else kv)
  else
    m ++ [(key, value)]

mutual

/-- `serialize_dict_to_map` (`libs/serialize.py` lines 62-88): builds a
fresh `java.util.HashMap` and `put`s every key of the input dictionary
with its converted value. -/
def serialize_dict_to_map (dictionary : List (Key × Val)) : Val :=
  .jmap (dictToMapLoop [] dictionary)

/-- The `for key, value in dictionary.items()` loop of
`serialize_dict_to_map`, with the `HashMap` built so far as accumulator. -/
def dictToMapLoop (acc : List (Key × Val)) : List (Key × Val) → List (Key × Val)
  | [] => acc
  | (key, value) :: rest => dictToMapLoop (assocPut acc key (dictValueConv value)) rest

/-- The `isinstance` chain on a dictionary value inside
`serialize_dict_to_map`: nested dicts and lists are converted
recursively, a `bool` is boxed into `java.lang.Boolean`, and every
other value is `put` unchanged. -/
def dictValueConv : Val → Val
  | .pydict d => serialize_dict_to_map d
  | .pylist l => serialize_list_to_array l
  | .pybool b => .jbool b
  | v => v

/-- `serialize_list_to_array` (`libs/serialize.py` lines 91-129): builds
a fresh `java.util.ArrayList` and `add`s every converted element. -/
def serialize_list_to_array (list_ : List Val) : Val :=
  .jarray (listToArrayLoop [] list_)

/-- The `for value in list_` loop of `serialize_list_to_array`, with the
`ArrayList` built so far as accumulator (`add` appends). -/
def listToArrayLoop (acc : List Val) : List Val → List Val
  | [] => acc
  | value :: rest => listToArrayLoop (acc ++ [listElemConv value]) rest

/-- The `isinstance` chain on a list element inside
`serialize_list_to_array`: nested lists and dicts are converted
recursively, `bool`/`int`/`float`/`str` are boxed into the Java wrapper
classes `Boolean`/`Long`/`Double`/`String`, and anything else is added
unchanged. -/
def listElemConv : Val → Val
  | .pylist l => serialize_list_to_array l
  | .pydict d => serialize_dict_to_map d
  | .pybool b => .jbool b
  | .pyint n => .jlong n
  | .pyfloat q => .jdouble q
  | .pystr s => .jstring s
  | v => v

end

mutual

/-- `serialize_map_to_dict` (`libs/serialize.py` lines 4-29): iterates
over the key-value pairs of a map-like object and stores each converted
value into a fresh Python dictionary. -/
def serialize_map_to_dict (hash_map : List (Key × Val)) : Val :=
  .pydict (mapToDictLoop [] hash_map)

/-- The `for key, value in zip(hash_map, hash_map.values())` loop of
`serialize_map_to_dict`, with the Python dict built so far as
accumulator (`d[key] = value` replaces or appends). -/
def mapToDictLoop (acc : List (Key × Val)) : List (Key × Val) → List (Key × Val)
  | [] => acc
  | (key, value) :: rest => mapToDictLoop (assocPut acc key (mapValueConv value)) rest

/-- The `hasattr` chain on a map value inside `serialize_map_to_dict`:
a value with a `put` attribute is recursively converted as a map, a
value with an `iterator` attribute as an array, anything else is stored
unchanged. -/
def mapValueConv : Val → Val
  | .jmap m => serialize_map_to_dict m
  | .jarray a => serialize_array_to_list a
  | v => v

/-- `serialize_array_to_list` (`libs/serialize.py` lines 32-59): builds
a Python list from an array-like object, appending each converted
element. -/
def serialize_array_to_list (array : List Val) : Val :=
  .pylist (arrayToListLoop [] array)

/-- The `for value in array` loop of `serialize_array_to_list`, with
the Python list built so far as accumulator (`append`). -/
def arrayToListLoop (acc : List Val) : List Val → List Val
  | [] => acc
  | value :: rest => arrayToListLoop (acc ++ [arrayElemConv value]) rest

/-- The `hasattr` chain on an array element inside
`serialize_array_to_list`: an element with an `iterator` attribute is
recursively converted as an array, one with a `put` attribute as a map,
anything else is appended unchanged. -/
def arrayElemConv : Val → Val
  | .jarray a => serialize_array_to_list a
  | .jmap m => serialize_map_to_dict m
  | v => v

end

/-- The Python type name interpolated into the exception message of
`serialize` by the f-string `f"raw ... serialization not supported"`. -/
def pyTypeName : Val → String
  | .pybool _ => "bool"
  | .pyint _ => "int"
  | .pyfloat _ => "float"
  | .pystr _ => "str"
  | .pydict _ => "dict"
  | .pylist _ => "list"
  | .jbool _ => "Boolean"
  | .jlong _ => "Long"
  | .jdouble _ => "Double"
  | .jstring _ => "String"
  | .jmap _ => "HashMap"
  | .jarray _ => "ArrayList"
  | .other _ => "object"

/-- The `isinstance` chain on an element of the list handled by the
`raw_python` branch of `serialize` (`libs/serialize.py` lines 152-175):
it repeats, case for case, the conversion chain of
`serialize_list_to_array`, with unsupported element types appended
unchanged by the final `else`. -/
def rawElemConv : Val → Val
  | .pylist l => serialize_list_to_array l
  | .pydict d => serialize_dict_to_map d
  | .pybool b => .jbool b
  | .pyint n => .jlong n
  | .pyfloat q => .jdouble q
  | .pystr s => .jstring s
  | v => v

/-- The `for value in data` loop of the `raw_python` branch of
`serialize`, appending each converted element to `raw_data`. -/
def rawSerializeLoop (acc : List Val) : List Val → List Val
  | [] => acc
  | value :: rest => rawSerializeLoop (acc ++ [rawElemConv value]) rest

/-- `serialize` (`libs/serialize.py` lines 132-186).  With
`raw_python=True` it raises unless the input is a list, and otherwise
returns a Python list of converted elements; with `raw_python=False` it
dispatches on the input: a dict goes to `serialize_dict_to_map`, a list
to `serialize_list_to_array`, an object with an `iterator` attribute to
`serialize_array_to_list`, one with a `put` attribute to
`serialize_map_to_dict`, and anything else is returned unchanged. -/
def serialize (data : Val) (raw_python : Bool) : Except String Val :=
  if raw_python then
    match data with
    | .pylist xs => .ok (.pylist (rawSerializeLoop [] xs))
    | _ => .error ("raw " ++ pyTypeName data ++ " serialization not supported")
  else
    match data with
    | .pydict d => .ok (serialize_dict_to_map d)
    | .pylist l => .ok (serialize_list_to_array l)
    | .jarray a => .ok (serialize_array_to_list a)
    | .jmap m => .ok (serialize_map_to_dict m)
    | v => .ok v

mutual

/-- Modelled from the spec: the pyjnius bridge, when a value is read
back from a Java collection into Python, automatically unboxes the Java
wrapper objects `Boolean`/`Long`/`Double`/`String` into the Python
primitives `bool`/`int`/`float`/`str`.  This bridge conversion lives in
the `jnius` dependency, outside this repository; it is the reading of
the round-trip claim's phrase "with Java boxed values unboxed back to
the original primitives", applied recursively below the structural
(dict/list) positions. -/
def unboxVal : Val → Val
  | .jbool b => .pybool b
  | .jlong n => .pyint n
  | .jdouble q => .pyfloat q
  | .jstring s => .pystr s
  | .pydict entries => .pydict (unboxEntries entries)
  | .pylist xs => .pylist (unboxElems xs)
  | v => v

/-- Recursion of `unboxVal` over dictionary entries; keys are
hashable primitives and pass through unchanged. -/
def unboxEntries : List (Key × Val) → List (Key × Val)
  | [] => []
  | (k, v) :: rest => (k, unboxVal v) :: unboxEntries rest

/-- Recursion of `unboxVal` over list elements. -/
def unboxElems : List Val → List Val
  | [] => []
  | v :: rest => unboxVal v :: unboxElems rest

end

/-- Whether a dictionary key is a Python string. -/
def isStrKey : Key → Bool
  | .kstr _ => true
  | .kbool _ => false
  | .kint _ => false
  | .kfloat _ => false
  | .kother _ => false

/-- The pure-Python structures the round-trip claim quantifies over:
values built recursively from dictionaries (with string keys, distinct
at every level, as Python dictionaries have), lists, booleans,
integers, floats and strings. -/
def isPyVal : Val → Bool
  | .pybool _ => true
  | .pyint _ => true
  | .pyfloat _ => true
  | .pystr _ => true
  | .pylist [] => true
  | .pylist (x :: xs) => isPyVal x && isPyVal (.pylist xs)
  | .pydict [] => true
  | .pydict ((k, v) :: rest) =>
      isStrKey k && decide (k ∉ rest.map Prod.fst)
        && isPyVal v && isPyVal (.pydict rest)
  | .jbool _ => false
  | .jlong _ => false
  | .jdouble _ => false
  | .jstring _ => false
  | .jmap _ => false
  | .jarray _ => false
  | .other _ => false

/-! ## `components/effects.py`: `StretchOverScrollStencil` -/

/-- The state of a `StretchOverScrollStencil` together with the widgets
it touches: its scroll view (position, size, scroll fractions,
`do_scroll_*` flags), its target widget's size, the effect's velocity,
the last touch position, and the `Scale` canvas instruction
(`scroll_scale`) with its origin and its value along the scale axis.
Geometry and velocity are Python floats, modelled by exact rationals;
the scale value is a real number because the stretch formula is
transcendental.  `scroll_view_some` models `self.scroll_view` being
set (not `None`). -/
structure StencilState where
  scale_axis_y : Bool
  scroll_view_some : Bool
  sv_x : ℚ
  sv_y : ℚ
  sv_width : ℚ
  sv_height : ℚ
  scroll_x : ℚ
  scroll_y : ℚ
  do_scroll_x : Bool
  do_scroll_y : Bool
  target_width : ℚ
  target_height : ℚ
  velocity : ℚ
  last_touch_pos : ℚ × ℚ
  origin : ℚ × ℚ
  scale : ℝ

/-- Android constant `maximum_velocity = 10000` of the stencil class. -/
def maximum_velocity : ℚ := 10000

/-- Android constant `stretch_intensity = 0.016` of the stencil class. -/
def stretch_intensity : ℝ := 0.016

/-- Constant `exponential_scalar = math.e / (1 / 3)` of the stencil class. -/
noncomputable def exponential_scalar : ℝ := Real.exp 1 / (1 / 3)

/-- Constant `approx_normailzer = 2e5` of the stencil class (sic). -/
def approx_normailzer : ℚ := 200000

/-- `StretchOverScrollStencil.clamp` (`effects.py` lines 80-82):
`min(max(value, min_val), max_val)`. -/
def clamp (value min_val max_val : ℚ) : ℚ :=
  min (max value min_val) max_val

/-- `StretchOverScrollStencil.is_top_or_bottom`: whether
`getattr(self.scroll_view, "scroll_" + self.scale_axis)` is in `[1, 0]`. -/
def is_top_or_bottom (s : StencilState) : Prop :=
  (if s.scale_axis_y then s.scroll_y else s.scroll_x) ∈ ([1, 0] : List ℚ)

instance (s : StencilState) : Decidable (is_top_or_bottom s) := by
  unfold is_top_or_bottom; infer_instance

/-- `StretchOverScrollStencil.get_hw`: `"height" if scale_axis == "y"
else "width"`. -/
def get_hw (s : StencilState) : String :=
  if s.scale_axis_y then "height" else "width"

/-- `getattr(widget, hw)` for a widget with the given height and width,
with `hw` one of the strings produced by `get_hw`. -/
def widget_dim (height width : ℚ) (hw : String) : ℚ :=
  if hw = "height" then height else width

/-- `StretchOverScrollStencil.set_scale_origin` (`effects.py` lines
110-122): when the target widget is smaller than the scroll view along
the scale axis it returns `False` and changes nothing; otherwise it
sets `scroll_scale.origin` from the scroll fractions and returns
`True`.  The returned pair is (return value, updated state). -/
def set_scale_origin (s : StencilState) : Bool × StencilState :=
  if widget_dim s.target_height s.target_width (get_hw s) <
      widget_dim s.sv_height s.sv_width (get_hw s) then
    (false, s)
  else
    (true, { s with origin :=
      (if s.scroll_x ≤ 1/2 then 0 else s.sv_width,
       if s.scroll_y ≤ 1/2 then 0 else s.sv_height) })

/-- `sanitized_velocity` as computed by
`StretchOverScrollStencil.absorb_impact` (`effects.py` lines 124-139):
`clamp(abs(velocity), 1, maximum_velocity)`. -/
def sanitized_velocity (velocity : ℚ) : ℚ :=
  clamp |velocity| 1 maximum_velocity

/-- The target scale of the animation started by
`StretchOverScrollStencil.absorb_impact`:
`1 + min(sanitized_velocity / approx_normailzer, 1 / 3)`. -/
def absorb_impact_scale (velocity : ℚ) : ℚ :=
  1 + min (sanitized_velocity velocity / approx_normailzer) (1 / 3)

/-- The duration of the animation started by
`StretchOverScrollStencil.absorb_impact`:
`(sanitized_velocity * 4) / 1e6`. -/
def absorb_impact_duration (velocity : ℚ) : ℚ :=
  sanitized_velocity velocity * 4 / 1000000

/-- Kivy's `Widget.collide_point(x, y)` on the scroll view:
`self.x <= x <= self.right and self.y <= y <= self.top` (external GUI
framework semantics, with `right = x + width` and `top = y + height`). -/
def collide_point (s : StencilState) (pos : ℚ × ℚ) : Prop :=
  s.sv_x ≤ pos.1 ∧ pos.1 ≤ s.sv_x + s.sv_width ∧
    s.sv_y ≤ pos.2 ∧ pos.2 ≤ s.sv_y + s.sv_height

instance (s : StencilState) (pos : ℚ × ℚ) : Decidable (collide_point s pos) := by
  unfold collide_point; infer_instance

/-- `StretchOverScrollStencil.get_component` (`effects.py` lines
141-142): `pos[-1 if self.scale_axis == "y" else 1]`.  On an `(x, y)`
pair both index `-1` and index `1` select the y component. -/
def get_component (s : StencilState) (pos : ℚ × ℚ) : ℚ :=
  if s.scale_axis_y then pos.2 else pos.2

/-- `getattr(self.scroll_view, "do_scroll_" + self.scale_axis)`. -/
def do_scroll_axis (s : StencilState) : Bool :=
  if s.scale_axis_y then s.do_scroll_y else s.do_scroll_x

/-- `StretchOverScrollStencil.convert_overscroll` (`effects.py` lines
144-168): under the guard (scroll view set, touch collides, scroll at
top or bottom, scrolling enabled along the axis, zero velocity, scale
origin successfully set — evaluated left to right with Python's
short-circuit `and`, so `set_scale_origin`'s state change happens only
when the earlier conjuncts hold) the scale along the scale axis is set
to `1 + exponential_intensity + linear_intensity` for the touch
distance normalised by the scroll view height. -/
noncomputable def convert_overscroll (s : StencilState) (touch_pos : ℚ × ℚ) : StencilState :=
  if s.scroll_view_some = true ∧ collide_point s touch_pos ∧ is_top_or_bottom s ∧
      do_scroll_axis s = true ∧ s.velocity = 0 then
    match set_scale_origin s with
    | (true, s1) =>
        let distance : ℚ :=
          |get_component s touch_pos - get_component s s.last_touch_pos| / s.sv_height
        let linear_intensity : ℝ := stretch_intensity * (distance : ℝ)
        let exponential_intensity : ℝ :=
          stretch_intensity * (1 - Real.exp (-(distance : ℝ) * exponential_scalar))
        { s1 with scale := 1 + exponential_intensity + linear_intensity }
    | (false, s1) => s1
  else s

/-! ## `ui/theme.py`: `ThemeManager` -/

/-- A kivy `ColorProperty` value, normalised to an rgba quadruple of
floats (modelled by exact rationals). -/
abbrev Color := List ℚ

/-- The colour and style properties of `ThemeManager`
(`ui/theme.py`), together with the window clear colour that
`set_theme` writes to. -/
structure ThemeState where
  bg_color : Color
  bg_color_light : Color
  bg_color_dark : Color
  card_color : Color
  card_color_light : Color
  card_color_dark : Color
  primary_color : Color
  primary_color_light : Color
  primary_color_dark : Color
  secondary_color : Color
  secondary_color_light : Color
  secondary_color_dark : Color
  accent_color : Color
  accent_color_light : Color
  accent_color_dark : Color
  shadow_color : Color
  shadow_color_light : Color
  shadow_color_dark : Color
  text_color : Color
  text_color_light : Color
  text_color_dark : Color
  transparent_color : Color
  disabled_color : Color
  theme_style : String
  window_clearcolor : Color

/-- `ThemeManager.set_theme` (`ui/theme.py` lines 123-156): copies the
`*_light` colours into the current colours when `theme_style` equals
`"Light"`, the `*_dark` colours otherwise, then assigns
`Window.clearcolor = self.bg_color`. -/
def set_theme (s : ThemeState) : ThemeState :=
  let s1 :=
    if s.theme_style = "Light" then
      { s with
        bg_color := s.bg_color_light
        primary_color := s.primary_color_light
        secondary_color := s.secondary_color_light
        accent_color := s.accent_color_light
        text_color := s.text_color_light
        shadow_color := s.shadow_color_light
        card_color := s.card_color_light }
    else
      { s with
        bg_color := s.bg_color_dark
        primary_color := s.primary_color_dark
        secondary_color := s.secondary_color_dark
        accent_color := s.accent_color_dark
        text_color := s.text_color_dark
        shadow_color := s.shadow_color_dark
        card_color := s.card_color_dark }
  { s1 with window_clearcolor := s1.bg_color }

/-- Accessor recovering the entries of a `java.util.HashMap` value. -/
def jmap_entries : Val → List (Key × Val)
  | .jmap m => m
  | _ => []

/-! ## Concrete example states used by the witnesses -/

/-- A stencil state whose target widget is smaller than the scroll view
along the scale axis. -/
def stencilSmallTarget : StencilState :=
  { scale_axis_y := true
    scroll_view_some := true
    sv_x := 0
    sv_y := 0
    sv_width := 100
    sv_height := 100
    scroll_x := 0
    scroll_y := 1
    do_scroll_x := true
    do_scroll_y := true
    target_width := 100
    target_height := 50
    velocity := 0
    last_touch_pos := (50, 40)
    origin := (3, 4)
    scale := 1 }

/-- A stencil state at the top of a scrollable content taller than the
scroll view, with zero velocity. -/
noncomputable def stencilStretch : StencilState :=
  { scale_axis_y := true
    scroll_view_some := true
    sv_x := 0
    sv_y := 0
    sv_width := 100
    sv_height := 100
    scroll_x := 0
    scroll_y := 1
    do_scroll_x := true
    do_scroll_y := true
    target_width := 100
    target_height := 200
    velocity := 0
    last_touch_pos := (50, 40)
    origin := (0, 0)
    scale := 1 }

/-- A theme state in the Light style. -/
def themeLight : ThemeState :=
  { bg_color := [0, 0, 0, 0]
    bg_color_light := [1, 1, 1, 1]
    bg_color_dark := [0, 0, 0, 1]
    card_color := [0, 0, 0, 0]
    card_color_light := [1, 1, 1, 1]
    card_color_dark := [0, 0, 0, 1]
    primary_color := [0, 0, 0, 0]
    primary_color_light := [0, 0, 0, 1]
    primary_color_dark := [1, 1, 1, 1]
    secondary_color := [0, 0, 0, 0]
    secondary_color_light := [1/2, 1/2, 1/2, 1]
    secondary_color_dark := [1/4, 1/4, 1/4, 1]
    accent_color := [0, 0, 0, 0]
    accent_color_light := [0, 0, 0, 1/20]
    accent_color_dark := [1, 1, 1, 2/25]
    shadow_color := [0, 0, 0, 0]
    shadow_color_light := [0, 0, 0, 13/20]
    shadow_color_dark := [1, 1, 1, 13/20]
    text_color := [0, 0, 0, 0]
    text_color_light := [1/4, 1/4, 1/4, 1]
    text_color_dark := [1, 1, 1, 1]
    transparent_color := [0, 0, 0, 0]
    disabled_color := [2/5, 2/5, 2/5, 7/10]
    theme_style := "Light"
    window_clearcolor := [0, 0, 0, 0] }

/-- A nested pure-Python dictionary used to witness the round trip. -/
def roundtripExample : List (Key × Val) :=
  [(Key.kstr "a", .pyint 1),
   (Key.kstr "b", .pydict [(Key.kstr "c", .pybool true)]),
   (Key.kstr "d", .pylist [.pyfloat (1/2), .pystr "x", .pybool false])]

/-! ## Lemmas about the marshalling loops -/

lemma assocPut_of_not_mem (m : List (Key × Val)) (k : Key) (v : Val)
    (h : k ∉ m.map Prod.fst) : assocPut m k v = m ++ [(k, v)] := by
  have hc : ¬ (m.any (fun kv => kv.1 == k) = true) := by
    simp only [List.any_eq_true, beq_iff_eq]
    rintro ⟨kv, hmem, hk⟩
    exact h (List.mem_map.mpr ⟨kv, hmem, hk⟩)
  unfold assocPut
  rw [if_neg hc]

lemma dictToMapLoop_eq (entries : List (Key × Val)) : ∀ acc : List (Key × Val),
    (entries.map Prod.fst).Nodup →
    (∀ k ∈ entries.map Prod.fst, k ∉ acc.map Prod.fst) →
    dictToMapLoop acc entries = acc ++ entries.map (fun kv => (kv.1, dictValueConv kv.2)) := by
  induction entries with
  | nil => intro acc _ _; simp [dictToMapLoop]
  | cons kv rest ih =>
    intro acc hnd hdisj
    obtain ⟨k, v⟩ := kv
    simp only [List.map_cons, List.nodup_cons] at hnd
    rw [dictToMapLoop, assocPut_of_not_mem _ _ _ (hdisj k (by simp)),
      ih (acc ++ [(k, dictValueConv v)]) hnd.2 ?_]
    · simp
    · intro k' hk'
      simp only [List.map_append, List.map_cons, List.map_nil, List.mem_append,
        List.mem_singleton, not_or]
      refine ⟨hdisj k' (by simp [hk']), ?_⟩
      intro hkk
      exact hnd.1 (hkk ▸ hk')

lemma mapToDictLoop_eq (entries : List (Key × Val)) : ∀ acc : List (Key × Val),
    (entries.map Prod.fst).Nodup →
    (∀ k ∈ entries.map Prod.fst, k ∉ acc.map Prod.fst) →
    mapToDictLoop acc entries = acc ++ entries.map (fun kv => (kv.1, mapValueConv kv.2)) := by
  induction entries with
  | nil => intro acc _ _; simp [mapToDictLoop]
  | cons kv rest ih =>
    intro acc hnd hdisj
    obtain ⟨k, v⟩ := kv
    simp only [List.map_cons, List.nodup_cons] at hnd
    rw [mapToDictLoop, assocPut_of_not_mem _ _ _ (hdisj k (by simp)),
      ih (acc ++ [(k, mapValueConv v)]) hnd.2 ?_]
    · simp
    · intro k' hk'
      simp only [List.map_append, List.map_cons, List.map_nil, List.mem_append,
        List.mem_singleton, not_or]
      refine ⟨hdisj k' (by simp [hk']), ?_⟩
      intro hkk
      exact hnd.1 (hkk ▸ hk')

lemma listToArrayLoop_eq (xs : List Val) : ∀ acc : List Val,
    listToArrayLoop acc xs = acc ++ xs.map listElemConv := by
  induction xs with
  | nil => intro acc; simp [listToArrayLoop]
  | cons x rest ih =>
    intro acc
    rw [listToArrayLoop, ih]
    simp

lemma arrayToListLoop_eq (xs : List Val) : ∀ acc : List Val,
    arrayToListLoop acc xs = acc ++ xs.map arrayElemConv := by
  induction xs with
  | nil => intro acc; simp [arrayToListLoop]
  | cons x rest ih =>
    intro acc
    rw [arrayToListLoop, ih]
    simp

lemma rawSerializeLoop_eq (xs : List Val) : ∀ acc : List Val,
    rawSerializeLoop acc xs = acc ++ xs.map rawElemConv := by
  induction xs with
  | nil => intro acc; simp [rawSerializeLoop]
  | cons x rest ih =>
    intro acc
    rw [rawSerializeLoop, ih]
    simp

lemma serialize_dict_to_map_eq (entries : List (Key × Val))
    (h : (entries.map Prod.fst).Nodup) :
    serialize_dict_to_map entries =
      .jmap (entries.map (fun kv => (kv.1, dictValueConv kv.2))) := by
  rw [serialize_dict_to_map, dictToMapLoop_eq entries [] h (by simp)]
  simp

lemma serialize_list_to_array_eq (xs : List Val) :
    serialize_list_to_array xs = .jarray (xs.map listElemConv) := by
  rw [serialize_list_to_array, listToArrayLoop_eq]
  simp

lemma serialize_map_to_dict_eq (entries : List (Key × Val))
    (h : (entries.map Prod.fst).Nodup) :
    serialize_map_to_dict entries =
      .pydict (entries.map (fun kv => (kv.1, mapValueConv kv.2))) := by
  rw [serialize_map_to_dict, mapToDictLoop_eq entries [] h (by simp)]
  simp

lemma serialize_array_to_list_eq (xs : List Val) :
    serialize_array_to_list xs = .pylist (xs.map arrayElemConv) := by
  rw [serialize_array_to_list, arrayToListLoop_eq]
  simp

/-! ## Lemmas for the dict/map round trip -/

lemma unboxEntries_eq (l : List (Key × Val)) :
    unboxEntries l = l.map (fun kv => (kv.1, unboxVal kv.2)) := by
  induction l with
  | nil => simp [unboxEntries]
  | cons kv rest ih => rw [unboxEntries, ih]; simp

lemma unboxElems_eq (l : List Val) : unboxElems l = l.map unboxVal := by
  induction l with
  | nil => simp [unboxElems]
  | cons v rest ih => rw [unboxElems, ih]; simp

lemma isPyVal_pydict_nodup (entries : List (Key × Val))
    (h : isPyVal (.pydict entries) = true) : (entries.map Prod.fst).Nodup := by
  induction entries with
  | nil => simp
  | cons kv rest ih =>
    obtain ⟨k, v⟩ := kv
    rw [isPyVal] at h
    simp only [Bool.and_eq_true, decide_eq_true_eq] at h
    simp only [List.map_cons, List.nodup_cons]
    exact ⟨h.1.1.2, ih h.2⟩

lemma isPyVal_pydict_values (entries : List (Key × Val))
    (h : isPyVal (.pydict entries) = true) :
    ∀ kv ∈ entries, isPyVal kv.2 = true := by
  induction entries with
  | nil => simp
  | cons kv rest ih =>
    obtain ⟨k, v⟩ := kv
    rw [isPyVal] at h
    simp only [Bool.and_eq_true, decide_eq_true_eq] at h
    intro kv' hkv'
    rcases List.mem_cons.mp hkv' with hkv' | hkv'
    · rw [hkv']
      exact h.1.2
    · exact ih h.2 kv' hkv'

lemma isPyVal_pylist_elems (xs : List Val)
    (h : isPyVal (.pylist xs) = true) : ∀ x ∈ xs, isPyVal x = true := by
  induction xs with
  | nil => simp
  | cons x rest ih =>
    rw [isPyVal] at h
    simp only [Bool.and_eq_true] at h
    intro x' hx'
    rcases List.mem_cons.mp hx' with hx' | hx'
    · rw [hx']
      exact h.1
    · exact ih h.2 x' hx'

/-- Elementwise round trip: on a pure-Python value, converting to the
Java model (either as a dictionary value or as a list element),
converting back to Python, and unboxing the Java wrapper objects is
the identity. -/
lemma roundtrip_val : ∀ (n : ℕ) (v : Val), sizeOf v ≤ n → isPyVal v = true →
    unboxVal (mapValueConv (dictValueConv v)) = v ∧
    unboxVal (arrayElemConv (listElemConv v)) = v := by
  intro n
  induction n with
  | zero =>
    intro v hsize _
    exfalso
    cases v <;> simp_arith at hsize
  | succ n ih =>
    intro v hsize hpy
    cases v with
    | pybool b =>
      constructor <;>
        simp [dictValueConv, mapValueConv, unboxVal, listElemConv, arrayElemConv]
    | pyint m =>
      constructor <;>
        simp [dictValueConv, mapValueConv, unboxVal, listElemConv, arrayElemConv]
    | pyfloat q =>
      constructor <;>
        simp [dictValueConv, mapValueConv, unboxVal, listElemConv, arrayElemConv]
    | pystr s =>
      constructor <;>
        simp [dictValueConv, mapValueConv, unboxVal, listElemConv, arrayElemConv]
    | pylist xs =>
      have hsize' : sizeOf xs ≤ n := by
        simp_arith [Val.pylist.sizeOf_spec] at hsize
        omega
      have helems : ∀ x ∈ xs, unboxVal (arrayElemConv (listElemConv x)) = x := by
        intro x hx
        have hxs : sizeOf x < sizeOf xs := List.sizeOf_lt_of_mem hx
        exact (ih x (by omega) (isPyVal_pylist_elems xs hpy x hx)).2
      have hcore :
          unboxVal (serialize_array_to_list (xs.map listElemConv)) = Val.pylist xs := by
        rw [serialize_array_to_list_eq, unboxVal, unboxElems_eq]
        simp only [List.map_map, Val.pylist.injEq]
        exact (List.map_congr_left (fun x hx => by simpa using helems x hx)).trans
          (List.map_id xs)
      constructor
      · rw [dictValueConv, serialize_list_to_array_eq, mapValueConv]
        exact hcore
      · rw [listElemConv, serialize_list_to_array_eq, arrayElemConv]
        exact hcore
    | pydict entries =>
      have hsize' : sizeOf entries ≤ n := by
        simp_arith [Val.pydict.sizeOf_spec] at hsize
        omega
      have hvals : ∀ kv ∈ entries, unboxVal (mapValueConv (dictValueConv kv.2)) = kv.2 := by
        intro kv hkv
        have h1 : sizeOf kv < sizeOf entries := List.sizeOf_lt_of_mem hkv
        have h2 : sizeOf kv.2 < sizeOf kv := by
          obtain ⟨k, v⟩ := kv
          simp_arith
        exact (ih kv.2 (by omega) (isPyVal_pydict_values entries hpy kv hkv)).1
      have hnodup := isPyVal_pydict_nodup entries hpy
      have hnodup2 :
          ((entries.map (fun kv => (kv.1, dictValueConv kv.2))).map Prod.fst).Nodup := by
        simpa [List.map_map, Function.comp] using hnodup
      have hcore :
          unboxVal (serialize_map_to_dict
              (entries.map (fun kv => (kv.1, dictValueConv kv.2)))) = Val.pydict entries := by
        rw [serialize_map_to_dict_eq _ hnodup2, unboxVal, unboxEntries_eq]
        simp only [List.map_map, Val.pydict.injEq]
        exact (List.map_congr_left
            (fun kv hkv => by simp [Function.comp, hvals kv hkv])).trans
          (List.map_id entries)
      constructor
      · rw [dictValueConv, serialize_dict_to_map_eq entries hnodup, mapValueConv]
        exact hcore
      · rw [listElemConv, serialize_dict_to_map_eq entries hnodup, arrayElemConv]
        exact hcore
    | jbool b => simp [isPyVal] at hpy
    | jlong m => simp [isPyVal] at hpy
    | jdouble q => simp [isPyVal] at hpy
    | jstring s => simp [isPyVal] at hpy
    | jmap m => simp [isPyVal] at hpy
    | jarray a => simp [isPyVal] at hpy
    | other t => simp [isPyVal] at hpy

/-- Lower bound of `clamp` when the interval is nonempty. -/
lemma clamp_lower (value min_val max_val : ℚ) (h : min_val ≤ max_val) :
    min_val ≤ clamp value min_val max_val :=
  le_min (le_max_right _ _) h

/-- Upper bound of `clamp`. -/
lemma clamp_upper (value min_val max_val : ℚ) :
    clamp value min_val max_val ≤ max_val :=
  min_le_right _ _

/-! ## Claim theorems -/

/-- C7: for every value and every pair `min_val ≤ max_val`,
`StretchOverScrollStencil.clamp(value, min_val, max_val)` returns
`min(max(value, min_val), max_val)`; the result lies in
`[min_val, max_val]` and equals `value` exactly when `value` is
already in that interval. -/
theorem clamp_spec (value min_val max_val : ℚ) (h : min_val ≤ max_val) :
    clamp value min_val max_val = min (max value min_val) max_val ∧
    min_val ≤ clamp value min_val max_val ∧
    clamp value min_val max_val ≤ max_val ∧
    (clamp value min_val max_val = value ↔ min_val ≤ value ∧ value ≤ max_val) := by
  have hlow : min_val ≤ clamp value min_val max_val := clamp_lower _ _ _ h
  have hhigh : clamp value min_val max_val ≤ max_val := clamp_upper _ _ _
  refine ⟨rfl, hlow, hhigh, ?_, ?_⟩
  · intro heq
    exact ⟨heq ▸ hlow, heq ▸ hhigh⟩
  · rintro ⟨h1, h2⟩
    show min (max value min_val) max_val = value
    rw [max_eq_left h1, min_eq_left h2]

/-- Witness for C7 at `value = 5`, `min_val = 0`, `max_val = 3`. -/
theorem clamp_spec_witness :
    clamp (5 : ℚ) 0 3 = min (max 5 0) 3 ∧
    (0 : ℚ) ≤ clamp 5 0 3 ∧
    clamp (5 : ℚ) 0 3 ≤ 3 ∧
    (clamp (5 : ℚ) 0 3 = 5 ↔ (0 : ℚ) ≤ 5 ∧ (5 : ℚ) ≤ 3) :=
  clamp_spec 5 0 3 (by norm_num)

/-- C4: `absorb_impact` sanitizes the velocity as
`clamp(abs(velocity), 1, maximum_velocity)` with
`maximum_velocity = 10000`, and the target scale it animates to equals
`1 + min(sanitized_velocity / 2e5, 1/3)`; the scale is strictly
greater than `1`, never exceeds `4/3`, and in fact never exceeds
`1.05`. -/
theorem absorb_impact_scale_bounds (velocity : ℚ) :
    sanitized_velocity velocity = clamp |velocity| 1 maximum_velocity ∧
    maximum_velocity = 10000 ∧
    absorb_impact_scale velocity =
      1 + min (sanitized_velocity velocity / 200000) (1 / 3) ∧
    1 < absorb_impact_scale velocity ∧
    absorb_impact_scale velocity ≤ 4 / 3 ∧
    absorb_impact_scale velocity ≤ 105 / 100 := by
  have hlow : (1 : ℚ) ≤ sanitized_velocity velocity := by
    unfold sanitized_velocity
    exact clamp_lower _ _ _ (by norm_num [maximum_velocity])
  have hupp : sanitized_velocity velocity ≤ 10000 := by
    unfold sanitized_velocity
    have h := clamp_upper |velocity| 1 maximum_velocity
    simpa [maximum_velocity] using h
  have hmin_pos : 0 < min (sanitized_velocity velocity / approx_normailzer) (1 / 3 : ℚ) := by
    apply lt_min
    · exact div_pos (by linarith) (by norm_num [approx_normailzer])
    · norm_num
  have hmin_upp :
      min (sanitized_velocity velocity / approx_normailzer) (1 / 3 : ℚ) ≤ 1 / 20 := by
    apply le_trans (min_le_left _ _)
    rw [approx_normailzer, div_le_iff₀ (by norm_num)]
    linarith
  refine ⟨rfl, rfl, rfl, ?_, ?_, ?_⟩
  · unfold absorb_impact_scale
    linarith
  · unfold absorb_impact_scale
    linarith
  · unfold absorb_impact_scale
    linarith

/-- C6: `set_scale_origin` returns `False` and leaves the scale origin
unchanged when the target widget's size along the scale axis is
smaller than the scroll view's; otherwise it returns `True` and sets
the origin to `[0 if scroll_x <= 0.5 else width, 0 if scroll_y <= 0.5
else height]`. -/
theorem set_scale_origin_spec (s : StencilState) :
    ((if s.scale_axis_y then s.target_height else s.target_width) <
        (if s.scale_axis_y then s.sv_height else s.sv_width) →
      (set_scale_origin s).1 = false ∧ (set_scale_origin s).2 = s) ∧
    (¬ (if s.scale_axis_y then s.target_height else s.target_width) <
        (if s.scale_axis_y then s.sv_height else s.sv_width) →
      (set_scale_origin s).1 = true ∧
      (set_scale_origin s).2.origin =
        (if s.scroll_x ≤ 1/2 then 0 else s.sv_width,
         if s.scroll_y ≤ 1/2 then 0 else s.sv_height)) := by
  have hdim : ∀ a b : ℚ, widget_dim a b (get_hw s) = if s.scale_axis_y then a else b := by
    intro a b
    unfold widget_dim get_hw
    by_cases hax : s.scale_axis_y <;> simp [hax]
  constructor
  · intro hlt
    unfold set_scale_origin
    rw [hdim, hdim, if_pos hlt]
    exact ⟨rfl, rfl⟩
  · intro hge
    unfold set_scale_origin
    rw [hdim, hdim, if_neg hge]
    exact ⟨rfl, rfl⟩

/-- Witness for C6 at a state whose target widget is smaller than the
scroll view along the scale axis. -/
theorem set_scale_origin_spec_witness :
    (set_scale_origin stencilSmallTarget).1 = false ∧
    (set_scale_origin stencilSmallTarget).2 = stencilSmallTarget :=
  (set_scale_origin_spec stencilSmallTarget).1 (by norm_num [stencilSmallTarget])

/-- C8: after `set_theme` runs, each current colour equals its
`*_light` counterpart when `theme_style` is `"Light"` and its `*_dark`
counterpart otherwise, and the window clear colour equals the
resulting background colour. -/
theorem set_theme_spec (s : ThemeState) :
    (s.theme_style = "Light" →
      (set_theme s).bg_color = s.bg_color_light ∧
      (set_theme s).primary_color = s.primary_color_light ∧
      (set_theme s).secondary_color = s.secondary_color_light ∧
      (set_theme s).accent_color = s.accent_color_light ∧
      (set_theme s).text_color = s.text_color_light ∧
      (set_theme s).shadow_color = s.shadow_color_light ∧
      (set_theme s).card_color = s.card_color_light) ∧
    (s.theme_style ≠ "Light" →
      (set_theme s).bg_color = s.bg_color_dark ∧
      (set_theme s).primary_color = s.primary_color_dark ∧
      (set_theme s).secondary_color = s.secondary_color_dark ∧
      (set_theme s).accent_color = s.accent_color_dark ∧
      (set_theme s).text_color = s.text_color_dark ∧
      (set_theme s).shadow_color = s.shadow_color_dark ∧
      (set_theme s).card_color = s.card_color_dark) ∧
    (set_theme s).window_clearcolor = (set_theme s).bg_color := by
  unfold set_theme
  by_cases h : s.theme_style = "Light" <;> simp [h]

/-- Witness for C8 at a concrete Light-style theme state. -/
theorem set_theme_spec_witness :
    (set_theme themeLight).bg_color = themeLight.bg_color_light ∧
    (set_theme themeLight).primary_color = themeLight.primary_color_light ∧
    (set_theme themeLight).secondary_color = themeLight.secondary_color_light ∧
    (set_theme themeLight).accent_color = themeLight.accent_color_light ∧
    (set_theme themeLight).text_color = themeLight.text_color_light ∧
    (set_theme themeLight).shadow_color = themeLight.shadow_color_light ∧
    (set_theme themeLight).card_color = themeLight.card_color_light :=
  (set_theme_spec themeLight).1 rfl

/-- C10: with `raw_python=True`, `serialize` raises exactly when the
input is not a list; on a list it never raises, returns a Python list
of the converted elements (hence of the same length), and appends
elements of unsupported types unchanged. -/
theorem serialize_raw_python_spec (data : Val) (xs : List Val) :
    ((∃ msg, serialize data true = Except.error msg) ↔ ∀ ys : List Val, data ≠ .pylist ys) ∧
    serialize (.pylist xs) true = .ok (.pylist (xs.map rawElemConv)) ∧
    (xs.map rawElemConv).length = xs.length ∧
    (∀ t, rawElemConv (.other t) = .other t) := by
  refine ⟨⟨?_, ?_⟩, ?_, by simp, fun t => by simp [rawElemConv]⟩
  · rintro ⟨msg, hmsg⟩ ys hy
    subst hy
    simp [serialize] at hmsg
  · intro hne
    cases data <;> first
      | exact absurd rfl (hne _)
      | exact ⟨_, rfl⟩
  · show Except.ok (Val.pylist (rawSerializeLoop [] xs)) = _
    rw [rawSerializeLoop_eq]
    simp

/-- Witness for C10 at a non-list input and a two-element list. -/
theorem serialize_raw_python_spec_witness :
    ((∃ msg, serialize (.pyint 5) true = Except.error msg) ↔
      ∀ ys : List Val, Val.pyint 5 ≠ .pylist ys) ∧
    serialize (.pylist [.pyint 1, .other 9]) true =
      .ok (.pylist (([.pyint 1, .other 9] : List Val).map rawElemConv)) ∧
    (([.pyint 1, .other 9] : List Val).map rawElemConv).length =
      ([.pyint 1, .other 9] : List Val).length ∧
    (∀ t, rawElemConv (.other t) = .other t) :=
  serialize_raw_python_spec (.pyint 5) [.pyint 1, .other 9]

/-- Counterexample to C1: `serialize_dict_to_map` does not box an
`int` dictionary value into `java.lang.Long`; the value is put
unchanged. -/
theorem dict_to_map_no_int_boxing :
    serialize_dict_to_map [(Key.kstr "k", Val.pyint 7)] =
      .jmap [(Key.kstr "k", Val.pyint 7)] ∧
    serialize_dict_to_map [(Key.kstr "k", Val.pyint 7)] ≠
      .jmap [(Key.kstr "k", Val.jlong 7)] := by
  have h : serialize_dict_to_map [(Key.kstr "k", Val.pyint 7)] =
      .jmap [(Key.kstr "k", Val.pyint 7)] := by
    rw [serialize_dict_to_map_eq _ (by simp)]
    simp [dictValueConv]
  refine ⟨h, ?_⟩
  rw [h]
  simp

/-- C1 as amended: `serialize_list_to_array` boxes `bool`/`int`/
`float`/`str` list elements into `java.lang.Boolean`/`Long`/`Double`/
`String`, while `serialize_dict_to_map` boxes only `bool` dictionary
values into `java.lang.Boolean` and puts `int`, `float` and `str`
values unchanged. -/
theorem primitive_boxing_amended (b : Bool) (n : ℤ) (q : ℚ) (str : String)
    (xs : List Val) (entries : List (Key × Val))
    (h : (entries.map Prod.fst).Nodup) :
    serialize_list_to_array xs = .jarray (xs.map listElemConv) ∧
    listElemConv (.pybool b) = .jbool b ∧
    listElemConv (.pyint n) = .jlong n ∧
    listElemConv (.pyfloat q) = .jdouble q ∧
    listElemConv (.pystr str) = .jstring str ∧
    serialize_dict_to_map entries =
      .jmap (entries.map (fun kv => (kv.1, dictValueConv kv.2))) ∧
    dictValueConv (.pybool b) = .jbool b ∧
    dictValueConv (.pyint n) = .pyint n ∧
    dictValueConv (.pyfloat q) = .pyfloat q ∧
    dictValueConv (.pystr str) = .pystr str := by
  refine ⟨serialize_list_to_array_eq xs, ?_, ?_, ?_, ?_,
    serialize_dict_to_map_eq entries h, ?_, ?_, ?_, ?_⟩ <;>
    simp [listElemConv, dictValueConv]

/-- Witness for the amended C1 at concrete primitive values, a
one-element list and a one-entry dictionary. -/
theorem primitive_boxing_amended_witness :
    serialize_list_to_array [.pyint 3] = .jarray (([.pyint 3] : List Val).map listElemConv) ∧
    listElemConv (.pybool true) = .jbool true ∧
    listElemConv (.pyint 2) = .jlong 2 ∧
    listElemConv (.pyfloat (1/2)) = .jdouble (1/2) ∧
    listElemConv (.pystr "s") = .jstring "s" ∧
    serialize_dict_to_map [(Key.kstr "a", Val.pybool true)] =
      .jmap (([(Key.kstr "a", Val.pybool true)] : List (Key × Val)).map
        (fun kv => (kv.1, dictValueConv kv.2))) ∧
    dictValueConv (.pybool true) = .jbool true ∧
    dictValueConv (.pyint 2) = .pyint 2 ∧
    dictValueConv (.pyfloat (1/2)) = .pyfloat (1/2) ∧
    dictValueConv (.pystr "s") = .pystr "s" :=
  primitive_boxing_amended true 2 (1/2) "s" [.pyint 3]
    [(Key.kstr "a", Val.pybool true)] (by simp)

/-- C2: on a dictionary with (necessarily distinct) keys,
`serialize_dict_to_map` returns a `HashMap` whose entries are exactly
the input entries with each value converted — nested dicts via
`serialize_dict_to_map`, nested lists via `serialize_list_to_array` —
and every input key appears exactly once; `serialize_list_to_array`
likewise converts every element, recursing into nested lists and
dicts. -/
theorem dict_to_map_structure (entries d : List (Key × Val)) (l xs : List Val)
    (h : (entries.map Prod.fst).Nodup) :
    serialize_dict_to_map entries =
      .jmap (entries.map (fun kv => (kv.1, dictValueConv kv.2))) ∧
    dictValueConv (.pydict d) = serialize_dict_to_map d ∧
    dictValueConv (.pylist l) = serialize_list_to_array l ∧
    (entries.map (fun kv => (kv.1, dictValueConv kv.2))).map Prod.fst =
      entries.map Prod.fst ∧
    (∀ k ∈ entries.map Prod.fst,
      ((entries.map (fun kv => (kv.1, dictValueConv kv.2))).map Prod.fst).count k = 1) ∧
    serialize_list_to_array xs = .jarray (xs.map listElemConv) ∧
    listElemConv (.pydict d) = serialize_dict_to_map d ∧
    listElemConv (.pylist l) = serialize_list_to_array l := by
  have hkeys : (entries.map (fun kv => (kv.1, dictValueConv kv.2))).map Prod.fst =
      entries.map Prod.fst := by
    simp [List.map_map, Function.comp]
  refine ⟨serialize_dict_to_map_eq entries h, by rw [dictValueConv], by rw [dictValueConv],
    hkeys, ?_, serialize_list_to_array_eq xs, by rw [listElemConv], by rw [listElemConv]⟩
  intro k hk
  rw [hkeys]
  exact List.count_eq_one_of_mem h hk

/-- Witness for C2 at a two-entry dictionary holding a nested
dictionary and a nested list. -/
theorem dict_to_map_structure_witness :
    serialize_dict_to_map [(Key.kstr "a", Val.pyint 1), (Key.kstr "b", Val.pybool true)] =
      .jmap (([(Key.kstr "a", Val.pyint 1), (Key.kstr "b", Val.pybool true)] :
          List (Key × Val)).map (fun kv => (kv.1, dictValueConv kv.2))) ∧
    dictValueConv (.pydict [(Key.kstr "c", Val.pyint 2)]) =
      serialize_dict_to_map [(Key.kstr "c", Val.pyint 2)] ∧
    dictValueConv (.pylist [.pystr "x"]) = serialize_list_to_array [.pystr "x"] ∧
    (([(Key.kstr "a", Val.pyint 1), (Key.kstr "b", Val.pybool true)] :
        List (Key × Val)).map (fun kv => (kv.1, dictValueConv kv.2))).map Prod.fst =
      ([(Key.kstr "a", Val.pyint 1), (Key.kstr "b", Val.pybool true)] :
        List (Key × Val)).map Prod.fst ∧
    (∀ k ∈ ([(Key.kstr "a", Val.pyint 1), (Key.kstr "b", Val.pybool true)] :
        List (Key × Val)).map Prod.fst,
      ((([(Key.kstr "a", Val.pyint 1), (Key.kstr "b", Val.pybool true)] :
          List (Key × Val)).map (fun kv => (kv.1, dictValueConv kv.2))).map
        Prod.fst).count k = 1) ∧
    serialize_list_to_array [.pyfloat (1/4)] =
      .jarray (([.pyfloat (1/4)] : List Val).map listElemConv) ∧
    listElemConv (.pydict [(Key.kstr "c", Val.pyint 2)]) =
      serialize_dict_to_map [(Key.kstr "c", Val.pyint 2)] ∧
    listElemConv (.pylist [.pystr "x"]) = serialize_list_to_array [.pystr "x"] :=
  dict_to_map_structure
    [(Key.kstr "a", Val.pyint 1), (Key.kstr "b", Val.pybool true)]
    [(Key.kstr "c", Val.pyint 2)] [.pystr "x"] [.pyfloat (1/4)] (by simp)

/-- C3: on a map-like object with distinct keys,
`serialize_map_to_dict` returns a Python dict with the same keys, in
which map-like values are converted via `serialize_map_to_dict`,
array-like values via `serialize_array_to_list`, and any value with
neither a `put` nor an `iterator` attribute is stored unchanged;
symmetrically `serialize_array_to_list` converts every element of an
array-like input. -/
theorem map_to_dict_structure (entries m : List (Key × Val)) (a xs : List Val)
    (v : Val) (h : (entries.map Prod.fst).Nodup)
    (hput : hasPut v = false) (hiter : hasIterator v = false) :
    serialize_map_to_dict entries =
      .pydict (entries.map (fun kv => (kv.1, mapValueConv kv.2))) ∧
    (entries.map (fun kv => (kv.1, mapValueConv kv.2))).map Prod.fst =
      entries.map Prod.fst ∧
    mapValueConv (.jmap m) = serialize_map_to_dict m ∧
    mapValueConv (.jarray a) = serialize_array_to_list a ∧
    mapValueConv v = v ∧
    serialize_array_to_list xs = .pylist (xs.map arrayElemConv) ∧
    arrayElemConv (.jarray a) = serialize_array_to_list a ∧
    arrayElemConv (.jmap m) = serialize_map_to_dict m ∧
    arrayElemConv v = v := by
  have hmv : mapValueConv v = v := by
    cases v <;> simp [hasPut, hasIterator] at hput hiter <;> simp [mapValueConv]
  have hav : arrayElemConv v = v := by
    cases v <;> simp [hasPut, hasIterator] at hput hiter <;> simp [arrayElemConv]
  refine ⟨serialize_map_to_dict_eq entries h, ?_, by rw [mapValueConv],
    by rw [mapValueConv], hmv, serialize_array_to_list_eq xs, by rw [arrayElemConv],
    by rw [arrayElemConv], hav⟩
  simp [List.map_map, Function.comp]

/-- Witness for C3 at a two-entry map holding a nested map and a
nested array, with a boxed `Long` as the untouched plain value. -/
theorem map_to_dict_structure_witness :
    serialize_map_to_dict [(Key.kstr "a", Val.jlong 1), (Key.kstr "b", Val.jbool true)] =
      .pydict (([(Key.kstr "a", Val.jlong 1), (Key.kstr "b", Val.jbool true)] :
          List (Key × Val)).map (fun kv => (kv.1, mapValueConv kv.2))) ∧
    (([(Key.kstr "a", Val.jlong 1), (Key.kstr "b", Val.jbool true)] :
        List (Key × Val)).map (fun kv => (kv.1, mapValueConv kv.2))).map Prod.fst =
      ([(Key.kstr "a", Val.jlong 1), (Key.kstr "b", Val.jbool true)] :
        List (Key × Val)).map Prod.fst ∧
    mapValueConv (.jmap [(Key.kstr "c", Val.jstring "s")]) =
      serialize_map_to_dict [(Key.kstr "c", Val.jstring "s")] ∧
    mapValueConv (.jarray [.jlong 2]) = serialize_array_to_list [.jlong 2] ∧
    mapValueConv (.jlong 9) = .jlong 9 ∧
    serialize_array_to_list [.jdouble (1/2)] =
      .pylist (([.jdouble (1/2)] : List Val).map arrayElemConv) ∧
    arrayElemConv (.jarray [.jlong 2]) = serialize_array_to_list [.jlong 2] ∧
    arrayElemConv (.jmap [(Key.kstr "c", Val.jstring "s")]) =
      serialize_map_to_dict [(Key.kstr "c", Val.jstring "s")] ∧
    arrayElemConv (.jlong 9) = .jlong 9 :=
  map_to_dict_structure
    [(Key.kstr "a", Val.jlong 1), (Key.kstr "b", Val.jbool true)]
    [(Key.kstr "c", Val.jstring "s")] [.jlong 2] [.jdouble (1/2)]
    (.jlong 9) (by simp) rfl rfl

/-- C9: for every dictionary with string keys whose values are built
recursively from dictionaries, lists and primitives, the round trip
`serialize_map_to_dict(serialize_dict_to_map(d))` returns `d` itself,
with the Java boxed values unboxed back to the original primitives by
the bridge. -/
theorem dict_roundtrip (d : List (Key × Val)) (h : isPyVal (.pydict d) = true) :
    unboxVal (serialize_map_to_dict (jmap_entries (serialize_dict_to_map d))) =
      .pydict d := by
  have h2 := (roundtrip_val (sizeOf (Val.pydict d)) (.pydict d) le_rfl h).1
  rw [dictValueConv] at h2
  rw [serialize_dict_to_map] at h2 ⊢
  rw [mapValueConv] at h2
  simpa [jmap_entries] using h2

/-- Witness for C9 at a concrete nested dictionary. -/
theorem dict_roundtrip_witness :
    unboxVal (serialize_map_to_dict (jmap_entries (serialize_dict_to_map
      roundtripExample))) = .pydict roundtripExample :=
  dict_roundtrip roundtripExample (by simp +decide [roundtripExample, isPyVal, isStrKey])

/-- C5: when `convert_overscroll` applies a stretch (scroll view set
and colliding with the touch, scroll at top or bottom, scrolling
enabled along the axis, zero velocity, scale origin set), the scale it
assigns is `1 + stretch_intensity * distance + stretch_intensity *
(1 - exp(-distance * exponential_scalar))`, where `distance` is the
absolute difference of the touch and last-touch components along the
scale axis divided by the scroll view's height, with
`stretch_intensity = 0.016` and `exponential_scalar = 3e`.  Stated for
the `"y"` scale axis, the class default and the only axis this
repository uses. -/
theorem convert_overscroll_formula (s : StencilState) (touch_pos : ℚ × ℚ)
    (hax : s.scale_axis_y = true)
    (hsv : s.scroll_view_some = true)
    (hcol : collide_point s touch_pos)
    (htb : is_top_or_bottom s)
    (hds : s.do_scroll_y = true)
    (hvel : s.velocity = 0)
    (horig : (set_scale_origin s).1 = true) :
    (convert_overscroll s touch_pos).scale =
      1 + stretch_intensity *
            ((|touch_pos.2 - s.last_touch_pos.2| / s.sv_height : ℚ) : ℝ)
        + stretch_intensity *
            (1 - Real.exp (-((|touch_pos.2 - s.last_touch_pos.2| / s.sv_height : ℚ) : ℝ)
              * exponential_scalar)) ∧
    stretch_intensity = (0.016 : ℝ) ∧
    exponential_scalar = 3 * Real.exp 1 := by
  refine ⟨?_, rfl, ?_⟩
  · have hpair : ((set_scale_origin s).1, (set_scale_origin s).2) = set_scale_origin s :=
      Prod.mk.eta
    rw [horig] at hpair
    unfold convert_overscroll
    rw [if_pos ⟨hsv, hcol, htb, by simp [do_scroll_axis, hax, hds], hvel⟩, ← hpair]
    simp only [get_component, hax, if_true]
    ring
  · unfold exponential_scalar
    ring

/-- Witness for C5 at a concrete stretched scroll state and touch. -/
theorem convert_overscroll_formula_witness :
    (convert_overscroll stencilStretch (50, 60)).scale =
      1 + stretch_intensity *
            ((|((50, 60) : ℚ × ℚ).2 - stencilStretch.last_touch_pos.2| /
              stencilStretch.sv_height : ℚ) : ℝ)
        + stretch_intensity *
            (1 - Real.exp (-((|((50, 60) : ℚ × ℚ).2 - stencilStretch.last_touch_pos.2| /
              stencilStretch.sv_height : ℚ) : ℝ) * exponential_scalar)) ∧
    stretch_intensity = (0.016 : ℝ) ∧
    exponential_scalar = 3 * Real.exp 1 :=
  convert_overscroll_formula stencilStretch (50, 60) rfl rfl
    (by norm_num [collide_point, stencilStretch])
    (by norm_num [is_top_or_bottom, stencilStretch])
    rfl rfl
    (by norm_num [set_scale_origin, stencilStretch, widget_dim, get_hw])

end MusicPlayer
